import Mathlib

set_option maxRecDepth 100000

/-!
Verification of the exam-question segmentation and retrieval pipeline of the
EXAM-V1 repository, as a shallow embedding in Lean 4.

The embedding follows the TypeScript sources:
* `src/main.tsx` — `QuestionDetector` (text-pattern detection, query parsing);
* `src/components/ExamViewer.tsx` — `extractQuestionNumber` and the exact-match
  store lookup in `handleSendMessage`;
* `supabase/functions/exam-assistant/index.ts` — the answer orchestrator
  (mode selection, fallback, error response);
* `supabase/functions/process-exam-paper/index.ts` — generative extraction
  (JSON parse + salvage), image cropping/stitching, storage-key derivation,
  and the question-record upsert;
* the `unnamed/part_003` variant — the regex + Gemini merge policy.

External collaborators (base64 image codecs, the canvas, the Postgres-backed
store, object storage, the Gemini API) are modelled as explicit parameters or
as small capability models, mirroring the contracts the code relies on.
-/

namespace ExamV1

/-! ## Character classes (JavaScript regex semantics) -/

/-- JavaScript `\s` restricted to the ASCII whitespace characters that occur in
this pipeline: space, tab, newline, carriage return, vertical tab, form feed. -/
def isWsChar (c : Char) : Bool :=
  c = ' ' || c = '\t' || c = '\n' || c = '\r' || c = '\x0b' || c = '\x0c'

/-- JavaScript `[a-z]` under the `i` flag: an ASCII letter of either case. -/
def isAsciiLetter (c : Char) : Bool :=
  ('a' ≤ c && c ≤ 'z') || ('A' ≤ c && c ≤ 'Z')

/-- JavaScript word character `\w`: ASCII letter, digit or underscore
(used for the `\b` word-boundary test). -/
def isWordChar (c : Char) : Bool :=
  isAsciiLetter c || c.isDigit || c = '_'

/-- JavaScript `String.prototype.trim` on the characters of a string. -/
def jsTrimList (cs : List Char) : List Char :=
  ((cs.dropWhile isWsChar).reverse.dropWhile isWsChar).reverse

/-- JavaScript `String.prototype.trim`. -/
def jsTrim (s : String) : String :=
  String.mk (jsTrimList s.data)

/-- ASCII lower-casing, as JavaScript `toLowerCase` acts on ASCII input. -/
def lowerStr (s : String) : String :=
  String.mk (s.data.map Char.toLower)

/-- Split a character list on a separator character, keeping empty pieces,
as JavaScript `String.prototype.split` does (`"".split` gives `[""]`). -/
def splitOnChar (sep : Char) : List Char → List (List Char)
  | [] => [[]]
  | c :: rest =>
    let r := splitOnChar sep rest
    if c = sep then [] :: r
    else
      match r with
      | [] => [[c]]
      | l :: ls => (c :: l) :: ls

/-- JavaScript `s.split("\n")`. -/
def splitNewlines (s : String) : List String :=
  (splitOnChar '\n' s.data).map String.mk

/-! ## Text-pattern boundary detector (`QuestionDetector` in `src/main.tsx`)

The detector scans each page's OCR text line by line.  A line opens a new
question when it matches `/^(?:\s*)(\d{1,2})(?=\s)/`: optional leading
whitespace, one or two digits, and a whitespace character right after the
digits (the lookahead).  Three or more digits never match, because the
quantifier is capped at two and the lookahead then fails on the next digit. -/

/-- The per-line match of `mainQuestionPattern = /^(?:\s*)(\d{1,2})(?=\s)/m`,
returning the captured digit group. -/
def mainQuestionMatch (line : String) : Option String :=
  let cs := line.data.dropWhile isWsChar
  let ds := cs.takeWhile Char.isDigit
  let rest := cs.drop ds.length
  if ds.length = 1 || ds.length = 2 then
    match rest.head? with
    | some c => if isWsChar c then some (String.mk ds) else none
    | none => none
  else none

/-- A detected question group: number label, page span, merged OCR text
(`QuestionGroup` in `src/main.tsx`). -/
structure QuestionGroup where
  questionNumber : String
  pageNumbers : List Nat
  fullText : String
deriving DecidableEq, Repr

/-- One line of `detectAndGroupQuestions`' inner loop: a matching line closes
the current group and opens a new one; a non-matching line attaches to the
current group (recording the page number once) or is dropped when no group is
open yet. -/
def detectLineStep (pageNumber : Nat) (st : List QuestionGroup × Option QuestionGroup)
    (line : String) : List QuestionGroup × Option QuestionGroup :=
  match mainQuestionMatch line with
  | some qn =>
    let groups := match st.2 with
      | some c => st.1 ++ [c]
      | none => st.1
    (groups, some ⟨qn, [pageNumber], jsTrim line⟩)
  | none =>
    match st.2 with
    | some c =>
      let pns := if pageNumber ∈ c.pageNumbers then c.pageNumbers
                 else c.pageNumbers ++ [pageNumber]
      (st.1, some ⟨c.questionNumber, pns, c.fullText ++ "\n" ++ jsTrim line⟩)
    | none => (st.1, none)

/-- Processing one page: split its OCR text on newlines and run the line step.
A page is given as `(pageNumber, ocrText)`. -/
def detectPageStep (st : List QuestionGroup × Option QuestionGroup)
    (page : Nat × String) : List QuestionGroup × Option QuestionGroup :=
  (splitNewlines page.2).foldl (detectLineStep page.1) st

/-- The detector `QuestionDetector.detectAndGroupQuestions` from `src/main.tsx`. -/
def detectAndGroupQuestions (pages : List (Nat × String)) : List QuestionGroup :=
  let st := pages.foldl detectPageStep ([], none)
  match st.2 with
  | some c => st.1 ++ [c]
  | none => st.1

/-! ## Question resolver (`extractQuestionNumber` in `src/components/ExamViewer.tsx`)

Three patterns, tried in order, first match wins; the captured group is
lower-cased:
1. `/question\s*(\d+[a-z]?)/i`
2. `/q\.?\s*(\d+[a-z]?)/i`
3. `/^(\d+[a-z]?)\b/i`
-/

/-- Case-insensitive literal match: consume `kw` (given lower-case) from the
front of `cs`, returning the rest on success. -/
def matchLiteralIC : List Char → List Char → Option (List Char)
  | [], cs => some cs
  | _ :: _, [] => none
  | k :: ks, c :: cs => if c.toLower = k then matchLiteralIC ks cs else none

/-- The shared capture tail `\s*(\d+[a-z]?)` (with the `i` flag, so the
optional trailing letter may be of either case): skip whitespace, require at
least one digit (greedy), optionally take one letter.  Returns the capture. -/
def captureNumTail (cs : List Char) : Option String :=
  let cs := cs.dropWhile isWsChar
  let ds := cs.takeWhile Char.isDigit
  if ds.isEmpty then none
  else
    match (cs.drop ds.length).head? with
    | some c => if isAsciiLetter c then some (String.mk (ds ++ [c])) else some (String.mk ds)
    | none => some (String.mk ds)

/-- Scan for `/question\s*(\d+[a-z]?)/i` anywhere in the text (the regex
engine tries every start position in order). -/
def findQuestionNumPattern : List Char → Option String
  | [] => none
  | c :: rest =>
    match (matchLiteralIC "question".data (c :: rest)).bind captureNumTail with
    | some r => some r
    | none => findQuestionNumPattern rest

/-- Scan for `/q\.?\s*(\d+[a-z]?)/i` anywhere in the text.  When the optional
dot is present but the tail fails, backtracking to the dotless branch also
fails (the dot is neither whitespace nor a digit), so consuming the dot
greedily is exact. -/
def findQDotNumPattern : List Char → Option String
  | [] => none
  | c :: rest =>
    (if c.toLower = 'q' then
      let afterDot := match rest with
        | '.' :: r => r
        | r => r
      captureNumTail afterDot
    else none).orElse (fun _ => findQDotNumPattern rest)

/-- The anchored pattern `/^(\d+[a-z]?)\b/i`: leading digits, an optional
letter, then a word boundary.  Backtracking over the optional letter is
modelled exactly: if the character after the digits is a letter, the match
succeeds only when the character after that letter is not a word character;
otherwise the boundary is checked right after the digits. -/
def matchLeadingNumWord (cs : List Char) : Option String :=
  let ds := cs.takeWhile Char.isDigit
  if ds.isEmpty then none
  else
    match cs.drop ds.length with
    | [] => some (String.mk ds)
    | c :: rest =>
      if isAsciiLetter c then
        match rest with
        | [] => some (String.mk (ds ++ [c]))
        | d :: _ => if isWordChar d then none else some (String.mk (ds ++ [c]))
      else if isWordChar c then none
      else some (String.mk ds)

/-- The resolver extraction `extractQuestionNumber` from
`src/components/ExamViewer.tsx`: the three
patterns in order, first match wins, capture lower-cased. -/
def extractQuestionNumber (text : String) : Option String :=
  match findQuestionNumPattern text.data with
  | some m => some (lowerStr m)
  | none =>
    match findQDotNumPattern text.data with
    | some m => some (lowerStr m)
    | none =>
      match matchLeadingNumWord text.data with
      | some m => some (lowerStr m)
      | none => none

/-- Modelled from the spec: `parseQuestionNumber` lives in
`supabase/functions/exam-assistant/question-retrieval.ts`, which is not in the
provided source tree (only its import in `exam-assistant/index.ts` is).
Spec §4.4: "extract a question-number label from free text using an ordered
list of patterns — 'question <num>', 'q[.]?<num>', or a bare leading number at
start of string — case-insensitive, first match wins, trailing lowercase
letter suffix (e.g. '2a') retained as part of the label.  If no pattern
matches, return null immediately." -/
def parseQuestionNumber (text : String) : Option String :=
  match findQuestionNumPattern text.data with
  | some m => some (lowerStr m)
  | none =>
    match findQDotNumPattern text.data with
    | some m => some (lowerStr m)
    | none =>
      match matchLeadingNumWord text.data with
      | some m => some (lowerStr m)
      | none => none

/-! ## Question store (`exam_questions` table)

A persisted question record, as written by the `process-exam-paper` function
(Step 3) and read back by `ExamViewer.handleSendMessage`.  The persistent
store capability is modelled as a list of rows; `upsertRow` models the
Postgres `upsert` with `onConflict: 'exam_paper_id,question_number'` — the
conflicting row is removed and the complete incoming row is written, which is
exactly what the code requests by passing every column on each upsert. -/

structure QuestionRow where
  examPaperId : String
  questionNumber : String
  pageNumbers : List Nat
  ocrText : String
  imageUrl : String
deriving DecidableEq, Repr

/-- The conflict key `(exam_paper_id, question_number)`. -/
def rowKey (r : QuestionRow) : String × String :=
  (r.examPaperId, r.questionNumber)

/-- The store capability's upsert keyed on `(exam_paper_id, question_number)`:
any row with the incoming key is dropped and the incoming row is appended. -/
def upsertRow (store : List QuestionRow) (r : QuestionRow) : List QuestionRow :=
  store.filter (fun s => decide (rowKey s ≠ rowKey r)) ++ [r]

/-- Exact-match lookup on the key, as `ExamViewer.handleSendMessage` issues it
(`.eq('exam_paper_id', …).eq('question_number', …).maybeSingle()`). -/
def lookupRow (store : List QuestionRow) (k : String × String) : Option QuestionRow :=
  store.find? (fun r => decide (rowKey r = k))

/-- The store's uniqueness invariant: at most one row per key. -/
def uniqueKeys (store : List QuestionRow) : Prop :=
  (store.map rowKey).Nodup

/-! ## Answer orchestrator (`supabase/functions/exam-assistant/index.ts`)

The handler's content selection, embedded as a total function.  The
database-backed `getQuestionImages` call is an external collaborator and is
passed as the `resolve` parameter (given an exam-paper id and a question
number it returns the stored question's images, or `none`).  The outcome is
either an error response returned to the caller, or a downstream send to the
AI-completion capability — `send` is the only constructor that invokes the
provider (`aiProvider.generateResponse`). -/

structure QuestionImages where
  examImages : List String
  markingSchemeImages : List String
deriving DecidableEq, Repr

structure AssistantRequest where
  question : String
  examPaperImages : List String
  markingSchemeImages : List String
  examPaperId : Option String
  optimizedMode : Bool
  providedQuestionNumber : Option String
deriving DecidableEq, Repr

inductive AssistantOutcome where
  | badRequest (msg : String)
  | send (examImages msImages : List String) (optimized : Bool) (qnum : Option String)
deriving DecidableEq, Repr

/-- The error message of the fallback branch when no whole-document images are
available (the "paper still processing" condition). -/
def noImagesMsg : String :=
  "No exam paper images available. Please provide examPaperImages or ensure the paper has been processed."

/-- The legacy-mode resolution step (lines 107–125 of the handler): extract a
question number from the free-text question, and if both it and the paper id
are present, ask the store; the result counts as a hit only when it carries at
least one exam image. -/
def legacyResolution (resolve : String → String → Option QuestionImages)
    (req : AssistantRequest) : Option (QuestionImages × String) :=
  match parseQuestionNumber req.question, req.examPaperId with
  | some qn, some idv =>
    match resolve idv qn with
    | some qd => if qd.examImages.isEmpty then none else some (qd, qn)
    | none => none
  | _, _ => none

/-- The `Deno.serve` handler's mode selection (lines 90–148), from request to
content-selection outcome. -/
def examAssistantHandler (resolve : String → String → Option QuestionImages)
    (req : AssistantRequest) : AssistantOutcome :=
  if req.question = "" then
    .badRequest "Missing required field: question"
  else if req.optimizedMode && !req.examPaperImages.isEmpty then
    .send req.examPaperImages req.markingSchemeImages true req.providedQuestionNumber
  else
    match legacyResolution resolve req with
    | some (qd, qn) => .send qd.examImages qd.markingSchemeImages true (some qn)
    | none =>
      if req.examPaperImages.isEmpty then .badRequest noImagesMsg
      else .send req.examPaperImages req.markingSchemeImages false none

/-! ## Merge policy (`unnamed/part_003`, Step 4: merge regex + Gemini results)

The regex detector's output records and the Gemini extraction items, merged
with a `seen` set of question-number strings: regex entries are pushed first
(skipping numbers already seen), then Gemini items fill in, with a Gemini
item's number defaulting to its 1-based index when missing or empty (the JS
`q.questionNumber || (i + 1).toString()`). -/

structure RegexQuestion where
  questionNumber : String
  pageNumbers : List Nat
  ocrTexts : List String
deriving DecidableEq, Repr

structure GeminiQuestion where
  questionNumber : Option String
  text : String
deriving DecidableEq, Repr

/-- The number under which a Gemini item at index `i` is merged. -/
def geminiNum (g : GeminiQuestion) (i : Nat) : String :=
  match g.questionNumber with
  | none => toString (i + 1)
  | some s => if s = "" then toString (i + 1) else s

/-- First phase of the merge: push each regex entry unless its number was
already seen, accumulating the seen set. -/
def mergePhase1 : List RegexQuestion → List String → List RegexQuestion × List String
  | [], seen => ([], seen)
  | q :: rest, seen =>
    if q.questionNumber ∈ seen then mergePhase1 rest seen
    else
      let r := mergePhase1 rest (q.questionNumber :: seen)
      (q :: r.1, r.2)

/-- Second phase: fill in Gemini items whose (defaulted) number is unseen,
as `{ questionNumber: num, pageNumbers: [], ocrTexts: [q.text] }`. -/
def mergePhase2 : List GeminiQuestion → Nat → List String → List RegexQuestion
  | [], _, _ => []
  | g :: rest, i, seen =>
    let num := geminiNum g i
    if num ∈ seen then mergePhase2 rest (i + 1) seen
    else ⟨num, [], [g.text]⟩ :: mergePhase2 rest (i + 1) (num :: seen)

/-- Step 4 of the `unnamed/part_003` handler: regex results first, Gemini
results fill the gaps. -/
def mergeQuestions (rqs : List RegexQuestion) (gqs : List GeminiQuestion) :
    List RegexQuestion :=
  let r := mergePhase1 rqs []
  r.1 ++ mergePhase2 gqs 0 r.2

/-- The spec's question-number normalization (§4.3: "trim, lowercase"), used
to state the merge claim's "normalized question-number key"; the merge code
itself compares raw strings. -/
def specNormalizeKey (s : String) : String :=
  lowerStr (jsTrim s)

/-! ## Storage-key derivation and object storage (`saveQuestionImages`)

`const cleanQuestionNum = question.questionNumber.replace(/[^a-zA-Z0-9]/g, '_');`
`const fileName = `${examPaperId}/question_${cleanQuestionNum}.jpg`;`
uploaded with `upsert: true` — the object storage capability overwrites on an
existing key. -/

/-- Implements `replace(/[^a-zA-Z0-9]/g, _)`: every character that is not an
ASCII letter or digit becomes an underscore. -/
def cleanQuestionNum (qn : String) : String :=
  String.mk (qn.data.map (fun c => if isAsciiLetter c || c.isDigit then c else '_'))

/-- The storage filename for a question's representative image. -/
def questionImageFileName (examPaperId qn : String) : String :=
  examPaperId ++ "/question_" ++ cleanQuestionNum qn ++ ".jpg"

/-- The object storage capability: `put` with `upsert: true` replaces any
object already stored under the key. -/
def storagePut (store : List (String × String)) (key value : String) :
    List (String × String) :=
  store.filter (fun e => decide (e.1 ≠ key)) ++ [(key, value)]

/-- Object storage read-back by key. -/
def storageGet (store : List (String × String)) (key : String) : Option String :=
  (store.find? (fun e => decide (e.1 = key))).map Prod.snd

/-! ## Image composer (`cropBarcodeFromBase64`, `stitchImagesVertically`)

A raster image is a width and a list of pixel rows (top first); its height is
the number of rows.  Decoding a base64 string to an image (`loadImage`) and
encoding back (`canvas.toBuffer(...).toString('base64')`) are external
capabilities passed as parameters; either may fail.  `cropBarcodeFromBase64`
crops the top `pct`% of the height: `cropHeight = Math.floor(height * pct/100)`
rows are removed (its `drawImage` call copies the source rows from
`cropHeight` down), and on any error the original base64 input is returned
unchanged (the promise resolves with it; it never rejects). -/

structure RasterImage where
  width : Nat
  rows : List (List Nat)
deriving DecidableEq, Repr

def RasterImage.height (img : RasterImage) : Nat :=
  img.rows.length

/-- The default `cropPercentage` parameter. -/
def cropPercentDefault : Nat := 12

/-- The pure crop: drop the top `height * pct / 100` rows. -/
def cropTop (img : RasterImage) (pct : Nat) : RasterImage :=
  ⟨img.width, img.rows.drop (img.height * pct / 100)⟩

/-- The crop step `cropBarcodeFromBase64`: decode, crop, re-encode; on any failure return
the original input. -/
def cropBarcodeFromBase64 (decode : String → Except String RasterImage)
    (encode : RasterImage → Except String String) (pct : Nat) (b64 : String) : String :=
  match decode b64 with
  | .error _ => b64
  | .ok img =>
    match encode (cropTop img pct) with
    | .error _ => b64
    | .ok out => out

/-- A canvas drawing operation issued by `stitchImagesVertically`.  The `x`
coordinate is rational because the JS code centers with `(maxWidth - w) / 2`,
which is fractional when the widths differ by an odd amount. -/
inductive DrawOp where
  | fillRectWhite (w h : Nat)
  | drawImage (img : RasterImage) (x : ℚ) (y : Nat)
deriving DecidableEq, Repr

structure CanvasSpec where
  width : Nat
  height : Nat
  ops : List DrawOp
deriving DecidableEq, Repr

/-- Implements `Math.max(...images.map(img => img.width))` over a non-empty list
(`0` stands in for the empty fold; the stitch path always has ≥ 2 images). -/
def maxImageWidth (imgs : List RasterImage) : Nat :=
  (imgs.map RasterImage.width).foldl Nat.max 0

def totalImageHeight (imgs : List RasterImage) : Nat :=
  (imgs.map RasterImage.height).sum

/-- The loading loop of `stitchImagesVertically`: crop each page's base64
image (never-failing), then decode it; a decode failure aborts the whole
stitch (the error propagates out of the `try`). -/
def loadCroppedImages (decode : String → Except String RasterImage)
    (encode : RasterImage → Except String String) :
    List String → Except String (List RasterImage)
  | [] => .ok []
  | b :: rest =>
    match decode (cropBarcodeFromBase64 decode encode cropPercentDefault b) with
    | .error e => .error e
    | .ok img =>
      match loadCroppedImages decode encode rest with
      | .error e => .error e
      | .ok imgs => .ok (img :: imgs)

/-- The drawing loop: each image at `x = (maxWidth - width) / 2`, with `y`
advancing by the preceding image's height. -/
def placeImages (maxW : Nat) (y : Nat) : List RasterImage → List DrawOp
  | [] => []
  | img :: rest =>
    .drawImage img (((maxW : ℚ) - (img.width : ℚ)) / 2) y ::
      placeImages maxW (y + img.height) rest

/-- The canvas built for a multi-image stitch: max width × summed height,
filled white, then the images drawn top-to-bottom. -/
def stitchCanvas (loaded : List RasterImage) : CanvasSpec :=
  ⟨maxImageWidth loaded, totalImageHeight loaded,
    .fillRectWhite (maxImageWidth loaded) (totalImageHeight loaded) ::
      placeImages (maxImageWidth loaded) 0 loaded⟩

/-- The composer `stitchImagesVertically`: error on empty input; a single image is only
cropped; two or more images are cropped, loaded and stitched onto the canvas,
which an external encoder (`canvas.toBuffer('image/jpeg', …)`) serializes. -/
def stitchImagesVertically (decode : String → Except String RasterImage)
    (encode : RasterImage → Except String String)
    (encodeCanvas : CanvasSpec → Except String String)
    (imgs : List String) : Except String String :=
  match imgs with
  | [] => .error "No images to stitch"
  | [b] => .ok (cropBarcodeFromBase64 decode encode cropPercentDefault b)
  | _ =>
    match loadCroppedImages decode encode imgs with
    | .error e => .error e
    | .ok loaded =>
      match encodeCanvas (stitchCanvas loaded) with
      | .error e => .error e
      | .ok out => .ok out

/-! ## Generative extraction: JSON parsing and salvage
(`extractAndSplitQuestions` in `supabase/functions/process-exam-paper/index.ts`)

`JSON.parse` is modelled by a standard recursive-descent JSON parser (fuelled
for termination; the fuel bound is generous).  Numbers are kept as their
lexemes — the pipeline only ever checks that a field is a number.  The salvage
path re-implements `jsonText.match(/\{[^}]*\}(?=\s*,|\s*\])/g)`: a literal
`{`, a run of non-`}` characters, a `}`, and a lookahead requiring optional
whitespace followed by `,` or `]`; the scan resumes after a successful match
and advances one character after a failed one, as the JS regex engine does. -/

def lbrace : Char := Char.ofNat 123
def rbrace : Char := Char.ofNat 125

/-- JSON whitespace (RFC 8259): space, tab, newline, carriage return. -/
def isJsonWs (c : Char) : Bool :=
  c = ' ' || c = '\t' || c = '\n' || c = '\r'

inductive Json where
  | jnull
  | jbool (b : Bool)
  | jnum (lexeme : String)
  | jstr (s : String)
  | jarr (elems : List Json)
  | jobj (fields : List (String × Json))

/-- Hexadecimal digit value. -/
def hexVal (c : Char) : Option Nat :=
  if c.isDigit then some (c.toNat - 48)
  else if 'a' ≤ c && c ≤ 'f' then some (c.toNat - 87)
  else if 'A' ≤ c && c ≤ 'F' then some (c.toNat - 55)
  else none

/-- Case-sensitive literal match, returning the rest on success. -/
def matchLit : List Char → List Char → Option (List Char)
  | [], cs => some cs
  | _ :: _, [] => none
  | k :: ks, c :: cs => if c = k then matchLit ks cs else none

/-- Parse a JSON string body (after the opening quote), handling the standard
escapes; raw control characters are rejected, as `JSON.parse` rejects them. -/
def parseStringBody : Nat → List Char → List Char → Option (String × List Char)
  | 0, _, _ => none
  | _ + 1, _, [] => none
  | fuel + 1, acc, c :: rest =>
    if c = '"' then some (String.mk acc.reverse, rest)
    else if c = '\\' then
      match rest with
      | [] => none
      | e :: rest2 =>
        if e = '"' then parseStringBody fuel ('"' :: acc) rest2
        else if e = '\\' then parseStringBody fuel ('\\' :: acc) rest2
        else if e = '/' then parseStringBody fuel ('/' :: acc) rest2
        else if e = 'b' then parseStringBody fuel ('\x08' :: acc) rest2
        else if e = 'f' then parseStringBody fuel ('\x0c' :: acc) rest2
        else if e = 'n' then parseStringBody fuel ('\n' :: acc) rest2
        else if e = 'r' then parseStringBody fuel ('\r' :: acc) rest2
        else if e = 't' then parseStringBody fuel ('\t' :: acc) rest2
        else if e = 'u' then
          match rest2 with
          | h1 :: h2 :: h3 :: h4 :: rest3 =>
            match hexVal h1, hexVal h2, hexVal h3, hexVal h4 with
            | some v1, some v2, some v3, some v4 =>
              parseStringBody fuel (Char.ofNat (((v1 * 16 + v2) * 16 + v3) * 16 + v4) :: acc) rest3
            | _, _, _, _ => none
          | _ => none
        else none
    else if c.toNat < 32 then none
    else parseStringBody fuel (c :: acc) rest

/-- Parse a JSON number lexeme: optional minus, integer part without leading
zeros, optional fraction, optional exponent. -/
def parseNumberLex (cs : List Char) : Option (String × List Char) :=
  let sgn : List Char × List Char :=
    match cs with
    | '-' :: r => (['-'], r)
    | _ => ([], cs)
  let intp := sgn.2.takeWhile Char.isDigit
  if intp.isEmpty then none
  else if 1 < intp.length && intp.head? = some '0' then none
  else
    let cs2 := sgn.2.drop intp.length
    let fracStep : Option (List Char × List Char) :=
      match cs2 with
      | '.' :: r =>
        let fd := r.takeWhile Char.isDigit
        if fd.isEmpty then none else some ('.' :: fd, r.drop fd.length)
      | _ => some ([], cs2)
    match fracStep with
    | none => none
    | some (fracp, cs3) =>
      let expStep : Option (List Char × List Char) :=
        match cs3 with
        | c :: r =>
          if c = 'e' || c = 'E' then
            let esgn : List Char × List Char :=
              match r with
              | '+' :: r2 => (['+'], r2)
              | '-' :: r2 => (['-'], r2)
              | _ => ([], r)
            let ed := esgn.2.takeWhile Char.isDigit
            if ed.isEmpty then none
            else some (c :: (esgn.1 ++ ed), esgn.2.drop ed.length)
          else some ([], cs3)
        | [] => some ([], [])
      match expStep with
      | none => none
      | some (expp, cs4) =>
        some (String.mk (sgn.1 ++ intp ++ fracp ++ expp), cs4)

mutual

/-- Parse a JSON value, returning it with the unconsumed rest. -/
def parseValueF : Nat → List Char → Option (Json × List Char)
  | 0, _ => none
  | fuel + 1, cs =>
    match cs.dropWhile isJsonWs with
    | [] => none
    | c :: rest =>
      if c = '"' then
        match parseStringBody (rest.length + 1) [] rest with
        | some (s, r) => some (.jstr s, r)
        | none => none
      else if c = lbrace then parseObjectF fuel rest
      else if c = '[' then parseArrayF fuel rest
      else if c = 't' then (matchLit "rue".data rest).map (fun r => (.jbool true, r))
      else if c = 'f' then (matchLit "alse".data rest).map (fun r => (.jbool false, r))
      else if c = 'n' then (matchLit "ull".data rest).map (fun r => (.jnull, r))
      else
        match parseNumberLex (c :: rest) with
        | some (lex, r) => some (.jnum lex, r)
        | none => none

/-- Parse an array body (after the opening bracket). -/
def parseArrayF : Nat → List Char → Option (Json × List Char)
  | 0, _ => none
  | fuel + 1, cs =>
    match cs.dropWhile isJsonWs with
    | ']' :: r => some (.jarr [], r)
    | _ =>
      match parseElemsF fuel cs with
      | some (es, r) => some (.jarr es, r)
      | none => none

/-- Parse one or more comma-separated array elements up to the closing
bracket. -/
def parseElemsF : Nat → List Char → Option (List Json × List Char)
  | 0, _ => none
  | fuel + 1, cs =>
    match parseValueF fuel cs with
    | none => none
    | some (v, r) =>
      match r.dropWhile isJsonWs with
      | ',' :: r3 =>
        match parseElemsF fuel r3 with
        | some (es, r4) => some (v :: es, r4)
        | none => none
      | ']' :: r3 => some ([v], r3)
      | _ => none

/-- Parse an object body (after the opening brace). -/
def parseObjectF : Nat → List Char → Option (Json × List Char)
  | 0, _ => none
  | fuel + 1, cs =>
    match cs.dropWhile isJsonWs with
    | [] => none
    | c :: r =>
      if c = rbrace then some (.jobj [], r)
      else
        match parseFieldsF fuel cs with
        | some (fs, r2) => some (.jobj fs, r2)
        | none => none

/-- Parse one or more `"key": value` fields up to the closing brace. -/
def parseFieldsF : Nat → List Char → Option (List (String × Json) × List Char)
  | 0, _ => none
  | fuel + 1, cs =>
    match cs.dropWhile isJsonWs with
    | '"' :: r =>
      match parseStringBody (r.length + 1) [] r with
      | none => none
      | some (k, r2) =>
        match r2.dropWhile isJsonWs with
        | ':' :: r4 =>
          match parseValueF fuel r4 with
          | none => none
          | some (v, r5) =>
            match r5.dropWhile isJsonWs with
            | ',' :: r7 =>
              match parseFieldsF fuel r7 with
              | some (fs, r8) => some ((k, v) :: fs, r8)
              | none => none
            | c :: r7 => if c = rbrace then some ([(k, v)], r7) else none
            | [] => none
        | _ => none
    | _ => none

end

/-- Implements `JSON.parse`: parse one value and require only whitespace after it. -/
def parseJson (s : String) : Option Json :=
  match parseValueF (3 * s.data.length + 3) s.data with
  | some (v, rest) => if (rest.dropWhile isJsonWs).isEmpty then some v else none
  | none => none

/-- The salvage scan `jsonText.match(/\{[^}]*\}(?=\s*,|\s*\])/g)`. -/
def scanBraceObjects : Nat → List Char → List (List Char)
  | 0, _ => []
  | _, [] => []
  | fuel + 1, c :: rest =>
    if c = lbrace then
      let body := rest.takeWhile (fun d => !(d = rbrace))
      match rest.drop body.length with
      | [] => scanBraceObjects fuel rest
      | _ :: rem =>
        let sk := rem.dropWhile isWsChar
        if sk.head? = some ',' || sk.head? = some ']' then
          (c :: (body ++ [rbrace])) :: scanBraceObjects fuel rem
        else scanBraceObjects fuel rest
    else scanBraceObjects fuel rest

/-- Reassembles the salvaged array text: a bracket, the matched objects
joined with commas, a closing bracket. -/
def salvageArrayText (objs : List (List Char)) : String :=
  "[" ++ String.intercalate "," (objs.map String.mk) ++ "]"

/-- The parse-then-salvage block of `extractAndSplitQuestions` (the `try` /
`catch` around `JSON.parse` plus the salvage attempt): on a parse failure,
regex-extract complete `{...}` objects and re-parse the reassembled array;
if nothing was matched or the reassembly fails either, the error surfaces. -/
def parseWithSalvage (jsonText : String) : Except String Json :=
  match parseJson jsonText with
  | some v => .ok v
  | none =>
    match scanBraceObjects jsonText.data.length jsonText.data with
    | [] => .error "JSON parse failed"
    | objs =>
      match parseJson (salvageArrayText objs) with
      | some v => .ok v
      | none => .error "JSON parse failed"

/-- The subsequent `Array.isArray` check: the parsed (or salvaged) value must
be an array, whose items the pipeline then validates. -/
def extractQuestionsArray (jsonText : String) : Except String (List Json) :=
  match parseWithSalvage jsonText with
  | .error e => .error e
  | .ok (.jarr xs) => .ok xs
  | .ok _ => .error "Gemini response is not an array"

/-! ## Concrete inputs used by the claim theorems and witnesses -/

/-- First of two question-record writes sharing the key `("doc", "1")`, with
text content disjoint from the second write's. -/
def rowFirstWrite : QuestionRow := ⟨"doc", "1", [1], "first text", "url1"⟩

/-- Second write for the same key, whose fields must fully replace the
first's. -/
def rowSecondWrite : QuestionRow := ⟨"doc", "1", [1, 2], "second text", "url2"⟩

/-- The record stored under question-number label `"1"` used for the C6
round-trip. -/
def storedRowOne : QuestionRow := ⟨"doc", "1", [1], "1 Calculate x.", "url"⟩

/-- A resolver over an empty store: every lookup misses. -/
def resolveAlwaysMiss : String → String → Option QuestionImages := fun _ _ => none

/-- A request whose question contains no recognizable question number, with no
page images supplied. -/
def reqNoImages : AssistantRequest := ⟨"hello", [], [], some "doc", false, none⟩

/-- The whole-document page-image set of a 5-page paper. -/
def fivePageImages : List String := ["p1", "p2", "p3", "p4", "p5"]

/-- A request with `optimizedMode = false`, a free-text question naming
question 1, and the 5 whole-document page images attached. -/
def reqFivePages : AssistantRequest :=
  ⟨"question 1", fivePageImages, [], some "doc", false, none⟩

/-- A store in which question 1 resolves to a single stored question image. -/
def resolveHitOne : String → String → Option QuestionImages :=
  fun _ _ => some ⟨["qimg"], []⟩

/-- A truncated JSON array response: the closing bracket is missing and the
text ends immediately after the second complete object's closing brace. -/
def geminiTruncatedResponse : String :=
  "[\x7b\"questionNumber\":\"1\",\"startPage\":1,\"endPage\":1,\"fullText\":\"a\"\x7d,\x7b\"questionNumber\":\"2\",\"startPage\":1,\"endPage\":1,\"fullText\":\"b\"\x7d"

/-- A truncated JSON array response cut off in the middle of a third object,
still containing exactly 2 complete objects (each followed by a comma). -/
def geminiTruncatedMidObjectResponse : String :=
  geminiTruncatedResponse ++ ",\x7b\"questionNumber\":\"3\",\"fullTe"

/-- The number of items of a successfully parsed array result. -/
def salvagedItemCount : Except String (List Json) → Option Nat
  | .ok xs => some xs.length
  | .error _ => none

/-- The first complete object of the truncated responses, as parsed. -/
def salvagedObjOne : Json :=
  .jobj [("questionNumber", .jstr "1"), ("startPage", .jnum "1"),
         ("endPage", .jnum "1"), ("fullText", .jstr "a")]

/-- The second complete object of the truncated responses, as parsed. -/
def salvagedObjTwo : Json :=
  .jobj [("questionNumber", .jstr "2"), ("startPage", .jnum "1"),
         ("endPage", .jnum "1"), ("fullText", .jstr "b")]

/-- A 10-row sample image for the C7 witness (10 * 12 / 100 = 1 row cropped). -/
def tenRowImage : RasterImage :=
  ⟨3, [[0], [1], [2], [3], [4], [5], [6], [7], [8], [9]]⟩

/-- A decoder that always yields the 10-row sample image. -/
def decodeTenRows : String → Except String RasterImage := fun _ => .ok tenRowImage

/-- An encoder that always succeeds with a fixed output string. -/
def encodeConst : RasterImage → Except String String := fun _ => .ok "cropped-b64"

/-- The text-pattern entry for "1a" used in the C3 counterexample/witness. -/
def regexEntryOneA : RegexQuestion := ⟨"1a", [1], ["t1"]⟩

/-- The generative item carrying the upper-case label "1A". -/
def geminiEntryOneA : GeminiQuestion := ⟨some "1A", "t2"⟩

/-- A decoder yielding a 1-row image whose width is the input's length. -/
def decodeSmall : String → Except String RasterImage := fun s => .ok ⟨s.length, [[7]]⟩

/-- An image encoder that always succeeds. -/
def encodeSmall : RasterImage → Except String String := fun _ => .ok "e"

/-- A canvas encoder that always succeeds. -/
def encodeCanvasSmall : CanvasSpec → Except String String := fun _ => .ok "stitched"

/-! ## Store lemmas -/

theorem find?_append_of_none {α : Type} (p : α → Bool) (l₁ l₂ : List α)
    (h : l₁.find? p = none) : (l₁ ++ l₂).find? p = l₂.find? p := by
  induction l₁ with
  | nil => rfl
  | cons a l ih =>
    rcases hpa : p a with _ | _
    · rw [List.cons_append, List.find?_cons_of_neg _ (by simp [hpa])]
      exact ih (by rwa [List.find?_cons_of_neg _ (by simp [hpa])] at h)
    · rw [List.find?_cons_of_pos _ hpa] at h
      exact absurd h (by simp)

theorem upsert_filtered_out (s : List QuestionRow) (r : QuestionRow) :
    (s.filter (fun t => decide (rowKey t ≠ rowKey r))).filter
      (fun t => decide (rowKey t = rowKey r)) = [] := by
  rw [List.filter_eq_nil_iff]
  intro a ha
  have := (List.mem_filter.mp ha).2
  simp only [decide_eq_true_eq] at this ⊢
  exact this

theorem lookup_upsert (s : List QuestionRow) (r : QuestionRow) :
    lookupRow (upsertRow s r) (rowKey r) = some r := by
  unfold lookupRow upsertRow
  rw [find?_append_of_none]
  · simp
  · rw [List.find?_eq_none]
    intro x hx
    have := (List.mem_filter.mp hx).2
    simp only [decide_eq_true_eq] at this ⊢
    exact this

theorem filter_upsert (s : List QuestionRow) (r : QuestionRow) :
    (upsertRow s r).filter (fun t => decide (rowKey t = rowKey r)) = [r] := by
  unfold upsertRow
  rw [List.filter_append, upsert_filtered_out]
  simp

theorem uniqueKeys_upsert (s : List QuestionRow) (r : QuestionRow)
    (h : uniqueKeys s) : uniqueKeys (upsertRow s r) := by
  unfold uniqueKeys upsertRow
  rw [List.map_append, List.nodup_append]
  refine ⟨?_, List.nodup_singleton _, ?_⟩
  · exact List.Nodup.sublist (List.Sublist.map rowKey (List.filter_sublist s)) h
  · intro k hk hk2
    simp only [List.map_cons, List.map_nil, List.mem_singleton] at hk2
    subst hk2
    obtain ⟨t, ht, hteq⟩ := List.mem_map.mp hk
    have := (List.mem_filter.mp ht).2
    simp only [decide_eq_true_eq] at this
    exact this hteq

/-! ## Claim theorems -/

/-- C2: on a 3-page corpus whose OCR texts are `"1 Calculate x.\n..."`,
`"continuation"` and `"2 Solve for y."`, the text-pattern strategy
(`QuestionDetector.detectAndGroupQuestions`) produces exactly two question
records: question `"1"` spanning pages `[1, 2]` and question `"2"` on page
`[3]`. -/
theorem detector_three_page_scenario :
    (detectAndGroupQuestions
        [(1, "1 Calculate x.\n..."), (2, "continuation"), (3, "2 Solve for y.")]).map
        (fun g => (g.questionNumber, g.pageNumbers)) =
      [("1", [1, 2]), ("2", [3])] := by
  decide

/-- C5: the store's upsert keyed on `(documentId, questionNumber)` is a full
replacement — after two writes with the same key the store holds exactly one
record for that key, all of whose fields are the second write's; and every
write preserves the at-most-one-record-per-key invariant. -/
theorem upsert_full_replacement (s : List QuestionRow) (r1 r2 : QuestionRow)
    (hk : rowKey r1 = rowKey r2) (hu : uniqueKeys s) :
    lookupRow (upsertRow (upsertRow s r1) r2) (rowKey r2) = some r2 ∧
    ((upsertRow (upsertRow s r1) r2).filter
      (fun t => decide (rowKey t = rowKey r2))).length = 1 ∧
    (∀ (t : List QuestionRow) (r : QuestionRow), uniqueKeys t → uniqueKeys (upsertRow t r)) := by
  refine ⟨lookup_upsert _ _, ?_, fun t r h => uniqueKeys_upsert t r h⟩
  rw [filter_upsert]
  rfl

/-- Witness for C5: the hypotheses hold at the concrete pair of writes and the
store reflects only the second write. -/
theorem upsert_full_replacement_witness :
    rowKey rowFirstWrite = rowKey rowSecondWrite ∧ uniqueKeys [] ∧
    lookupRow (upsertRow (upsertRow [] rowFirstWrite) rowSecondWrite)
      (rowKey rowSecondWrite) = some rowSecondWrite :=
  ⟨rfl, List.nodup_nil,
    (upsert_full_replacement [] rowFirstWrite rowSecondWrite rfl List.nodup_nil).1⟩

/-- C6: the resolver's question-number extraction maps each of
`"Question 1"`, `"Q1"`, `"q.1"` and `"1"` to the label `"1"`, and the
exact-match store lookup therefore finds a record stored under key `"1"` for
all four query variants. -/
theorem resolver_four_query_variants :
    extractQuestionNumber "Question 1" = some "1" ∧
    extractQuestionNumber "Q1" = some "1" ∧
    extractQuestionNumber "q.1" = some "1" ∧
    extractQuestionNumber "1" = some "1" ∧
    ((extractQuestionNumber "Question 1").bind
      (fun qn => lookupRow [storedRowOne] ("doc", qn)) = some storedRowOne) ∧
    ((extractQuestionNumber "Q1").bind
      (fun qn => lookupRow [storedRowOne] ("doc", qn)) = some storedRowOne) ∧
    ((extractQuestionNumber "q.1").bind
      (fun qn => lookupRow [storedRowOne] ("doc", qn)) = some storedRowOne) ∧
    ((extractQuestionNumber "1").bind
      (fun qn => lookupRow [storedRowOne] ("doc", qn)) = some storedRowOne) := by
  decide

/-- C10: the storage-key derivation replaces every non-alphanumeric character
of the question number with `_`, so the distinct labels `"1.a"` and `"1)a"`
collide on the same filename, and storing the second question's image under
the shared key overwrites the first's (object storage holds exactly one
object under that key, the second image). -/
theorem storage_key_collision :
    questionImageFileName "doc" "1.a" = "doc/question_1_a.jpg" ∧
    questionImageFileName "doc" "1)a" = questionImageFileName "doc" "1.a" ∧
    ("1.a" : String) ≠ "1)a" ∧
    storageGet
      (storagePut (storagePut [] (questionImageFileName "doc" "1.a") "imageA")
        (questionImageFileName "doc" "1)a") "imageB")
      (questionImageFileName "doc" "1.a") = some "imageB" ∧
    ((storagePut (storagePut [] (questionImageFileName "doc" "1.a") "imageA")
        (questionImageFileName "doc" "1)a") "imageB").filter
      (fun e => decide (e.1 = questionImageFileName "doc" "1.a"))).length = 1 := by
  decide

/-- C9: when the orchestrator reaches fallback mode (the optimized branch is
not taken and legacy resolution misses) and no whole-document page images are
available, it returns the "paper still processing" error to the caller and
never produces a `send` outcome — the only outcome that invokes the
AI-completion capability. -/
theorem fallback_no_images_errors (resolve : String → String → Option QuestionImages)
    (req : AssistantRequest) (hq : req.question ≠ "")
    (hi : req.examPaperImages = []) (hm : legacyResolution resolve req = none) :
    examAssistantHandler resolve req = .badRequest noImagesMsg ∧
    ∀ ex ms o qn, examAssistantHandler resolve req ≠ .send ex ms o qn := by
  have h : examAssistantHandler resolve req = .badRequest noImagesMsg := by
    unfold examAssistantHandler
    rw [if_neg hq, hi]
    simp [hm]
  exact ⟨h, fun ex ms o qn hc => by rw [h] at hc; exact AssistantOutcome.noConfusion hc⟩

/-- Witness for C9 at a concrete request with an empty image set. -/
theorem fallback_no_images_errors_witness :
    reqNoImages.question ≠ "" ∧ reqNoImages.examPaperImages = [] ∧
    legacyResolution resolveAlwaysMiss reqNoImages = none ∧
    examAssistantHandler resolveAlwaysMiss reqNoImages = .badRequest noImagesMsg :=
  ⟨by decide, rfl, rfl,
    (fallback_no_images_errors resolveAlwaysMiss reqNoImages (by decide) rfl rfl).1⟩

/-- C1 counterexample: with `optimizedMode = false` and 5 whole-document page
images, a resolver hit makes the orchestrator send only the stored question's
single image downstream — not the 5 whole-document images.  The claim's
"regardless of whether the question resolver finds a matching stored question
record" is therefore false on the code: `optimizedMode = false` merely skips
the pre-fetched-image branch, after which the handler still attempts legacy
resolution and goes optimized on a hit. -/
theorem orchestrator_hit_overrides_disabled_optimization :
    examAssistantHandler resolveHitOne reqFivePages = .send ["qimg"] [] true (some "1") ∧
    reqFivePages.optimizedMode = false ∧
    reqFivePages.examPaperImages.length = 5 ∧
    (["qimg"] : List String) ≠ reqFivePages.examPaperImages := by
  decide

/-- C1 amended: with `optimizedMode = false`, the orchestrator sends the
whole-document image set downstream exactly when legacy resolution misses
(and images are available); when the resolver finds a stored question with at
least one image, it sends the resolver's question-specific images instead. -/
theorem orchestrator_disabled_optimization_fallback
    (resolve : String → String → Option QuestionImages) (req : AssistantRequest)
    (ho : req.optimizedMode = false) (hq : req.question ≠ "") :
    (legacyResolution resolve req = none → req.examPaperImages ≠ [] →
      examAssistantHandler resolve req =
        .send req.examPaperImages req.markingSchemeImages false none) ∧
    (∀ qd qn, legacyResolution resolve req = some (qd, qn) →
      examAssistantHandler resolve req =
        .send qd.examImages qd.markingSchemeImages true (some qn)) := by
  constructor
  · intro hm hne
    unfold examAssistantHandler
    rw [if_neg hq, ho]
    simp [hm, List.isEmpty_iff, hne]
  · intro qd qn hm
    unfold examAssistantHandler
    rw [if_neg hq, ho]
    simp [hm]

/-- Witness for the amended C1 at the concrete 5-page request: a resolver hit
yields the single-image optimized send. -/
theorem orchestrator_disabled_optimization_fallback_witness :
    reqFivePages.optimizedMode = false ∧ reqFivePages.question ≠ "" ∧
    legacyResolution resolveHitOne reqFivePages = some (⟨["qimg"], []⟩, "1") ∧
    examAssistantHandler resolveHitOne reqFivePages = .send ["qimg"] [] true (some "1") :=
  ⟨rfl, by decide, rfl,
    (orchestrator_disabled_optimization_fallback resolveHitOne reqFivePages rfl
      (by decide)).2 ⟨["qimg"], []⟩ "1" rfl⟩

/-- C4 counterexample: on a truncated array missing its closing bracket that
contains exactly 2 complete, individually well-formed objects, the salvage
path returns only 1 item, not 2: the salvage regex
`/\{[^}]*\}(?=\s*,|\s*\])/g` requires each object to be followed by a comma or
a closing bracket, and the final complete object — followed by the end of the
truncated text — fails that lookahead and is dropped. -/
theorem salvage_drops_final_object :
    parseJson geminiTruncatedResponse = none ∧
    extractQuestionsArray geminiTruncatedResponse = .ok [salvagedObjOne] ∧
    salvagedItemCount (extractQuestionsArray geminiTruncatedResponse) = some 1 ∧
    salvagedItemCount (extractQuestionsArray geminiTruncatedResponse) ≠ some 2 := by
  refine ⟨rfl, rfl, rfl, ?_⟩
  rw [show salvagedItemCount (extractQuestionsArray geminiTruncatedResponse) = some 1 from rfl]
  decide

/-- C4 amended: on a truncated array missing its closing bracket, cut off in
the middle of a further object, whose 2 complete well-formed objects are each
followed by a comma, the salvage path returns exactly those 2 parsed items —
not zero items and not an error. -/
theorem salvage_recovers_comma_followed_objects :
    parseJson geminiTruncatedMidObjectResponse = none ∧
    extractQuestionsArray geminiTruncatedMidObjectResponse =
      .ok [salvagedObjOne, salvagedObjTwo] ∧
    salvagedItemCount (extractQuestionsArray geminiTruncatedMidObjectResponse) = some 2 :=
  ⟨rfl, rfl, rfl⟩

/-! ## C7: crop never fails the pipeline -/

/-- C7: `cropBarcodeFromBase64` never rejects: if decoding the input image
fails, or re-encoding the cropped image fails, the original input is returned
unchanged; on success the result is the encoded image with the top
`height * 12 / 100` rows (12% of the height, floored) removed, the width
unchanged. -/
theorem crop_never_fails (decode : String → Except String RasterImage)
    (encode : RasterImage → Except String String) (b64 : String) :
    (∀ e, decode b64 = .error e →
      cropBarcodeFromBase64 decode encode cropPercentDefault b64 = b64) ∧
    (∀ img e, decode b64 = .ok img →
      encode (cropTop img cropPercentDefault) = .error e →
      cropBarcodeFromBase64 decode encode cropPercentDefault b64 = b64) ∧
    (∀ img out, decode b64 = .ok img →
      encode (cropTop img cropPercentDefault) = .ok out →
      cropBarcodeFromBase64 decode encode cropPercentDefault b64 = out ∧
      (cropTop img cropPercentDefault).rows =
        img.rows.drop (img.height * 12 / 100) ∧
      (cropTop img cropPercentDefault).height = img.height - img.height * 12 / 100 ∧
      (cropTop img cropPercentDefault).width = img.width) := by
  refine ⟨?_, ?_, ?_⟩
  · intro e hd
    simp [cropBarcodeFromBase64, hd]
  · intro img e hd he
    simp [cropBarcodeFromBase64, hd, he]
  · intro img out hd he
    refine ⟨by simp [cropBarcodeFromBase64, hd, he], rfl, ?_, rfl⟩
    simp [cropTop, RasterImage.height, cropPercentDefault]

/-- Witness for C7 on the success path with a concrete decoder and encoder. -/
theorem crop_never_fails_witness :
    decodeTenRows "orig-b64" = .ok tenRowImage ∧
    encodeConst (cropTop tenRowImage cropPercentDefault) = .ok "cropped-b64" ∧
    cropBarcodeFromBase64 decodeTenRows encodeConst cropPercentDefault "orig-b64" =
      "cropped-b64" ∧
    (cropTop tenRowImage cropPercentDefault).height = 9 :=
  ⟨rfl, rfl,
    ((crop_never_fails decodeTenRows encodeConst "orig-b64").2.2 tenRowImage
      "cropped-b64" rfl rfl).1,
    by decide⟩

/-! ## C3: merge-policy lemmas -/

theorem mergePhase1_sub (rqs : List RegexQuestion) (seen : List String) :
    ∀ m ∈ (mergePhase1 rqs seen).1, m ∈ rqs := by
  induction rqs generalizing seen with
  | nil => intro m hm; exact absurd hm (by simp [mergePhase1])
  | cons q rest ih =>
    intro m hm
    by_cases hq : q.questionNumber ∈ seen
    · rw [mergePhase1, if_pos hq] at hm
      exact List.mem_cons_of_mem _ (ih seen m hm)
    · rw [mergePhase1, if_neg hq] at hm
      rcases List.mem_cons.mp hm with h | h
      · exact h ▸ List.mem_cons_self _ _
      · exact List.mem_cons_of_mem _ (ih _ m h)

theorem mergePhase1_seen_mono (rqs : List RegexQuestion) (seen : List String) :
    ∀ s ∈ seen, s ∈ (mergePhase1 rqs seen).2 := by
  induction rqs generalizing seen with
  | nil => intro s hs; simpa [mergePhase1] using hs
  | cons q rest ih =>
    intro s hs
    by_cases hq : q.questionNumber ∈ seen
    · rw [mergePhase1, if_pos hq]
      exact ih seen s hs
    · rw [mergePhase1, if_neg hq]
      exact ih _ s (List.mem_cons_of_mem _ hs)

theorem mergePhase1_keys_seen (rqs : List RegexQuestion) (seen : List String) :
    ∀ q ∈ rqs, q.questionNumber ∈ (mergePhase1 rqs seen).2 := by
  induction rqs generalizing seen with
  | nil => intro q hq; exact absurd hq (by simp)
  | cons a rest ih =>
    intro q hq
    by_cases ha : a.questionNumber ∈ seen
    · rw [mergePhase1, if_pos ha]
      rcases List.mem_cons.mp hq with h | h
      · exact h ▸ mergePhase1_seen_mono rest seen _ ha
      · exact ih seen q h
    · rw [mergePhase1, if_neg ha]
      rcases List.mem_cons.mp hq with h | h
      · exact h ▸ mergePhase1_seen_mono rest _ _ (List.mem_cons_self _ _)
      · exact ih _ q h

theorem mergePhase1_out_nodup (rqs : List RegexQuestion) (seen : List String) :
    ((mergePhase1 rqs seen).1.map (fun q => q.questionNumber)).Nodup ∧
    ∀ m ∈ (mergePhase1 rqs seen).1, m.questionNumber ∉ seen := by
  induction rqs generalizing seen with
  | nil => exact ⟨by simp [mergePhase1], by simp [mergePhase1]⟩
  | cons q rest ih =>
    by_cases hq : q.questionNumber ∈ seen
    · rw [mergePhase1, if_pos hq]
      exact ih seen
    · rw [mergePhase1, if_neg hq]
      obtain ⟨hnd, hout⟩ := ih (q.questionNumber :: seen)
      refine ⟨?_, ?_⟩
      · rw [List.map_cons, List.nodup_cons]
        refine ⟨?_, hnd⟩
        intro hmem
        obtain ⟨m, hm, hmeq⟩ := List.mem_map.mp hmem
        exact hout m hm (hmeq ▸ List.mem_cons_self _ _)
      · intro m hm
        rcases List.mem_cons.mp hm with h | h
        · exact h ▸ hq
        · exact fun hc => hout m h (List.mem_cons_of_mem _ hc)

theorem mergePhase1_covers (rqs : List RegexQuestion) (seen : List String) :
    ∀ q ∈ rqs, q.questionNumber ∉ seen →
      ∃ m ∈ (mergePhase1 rqs seen).1, m.questionNumber = q.questionNumber := by
  induction rqs generalizing seen with
  | nil => intro q hq; exact absurd hq (by simp)
  | cons a rest ih =>
    intro q hq hqs
    by_cases ha : a.questionNumber ∈ seen
    · rw [mergePhase1, if_pos ha]
      rcases List.mem_cons.mp hq with h | h
      · exact absurd (h ▸ ha) hqs
      · exact ih seen q h hqs
    · rw [mergePhase1, if_neg ha]
      rcases List.mem_cons.mp hq with h | h
      · exact ⟨a, List.mem_cons_self _ _, by rw [h]⟩
      · by_cases hsame : q.questionNumber = a.questionNumber
        · exact ⟨a, List.mem_cons_self _ _, hsame.symm⟩
        · obtain ⟨m, hm, hmeq⟩ := ih (a.questionNumber :: seen) q h
            (by simp [hsame, hqs])
          exact ⟨m, List.mem_cons_of_mem _ hm, hmeq⟩

theorem mergePhase2_keys (gqs : List GeminiQuestion) (i : Nat) (seen : List String) :
    (∀ m ∈ mergePhase2 gqs i seen, m.questionNumber ∉ seen) ∧
    ((mergePhase2 gqs i seen).map (fun q => q.questionNumber)).Nodup := by
  induction gqs generalizing i seen with
  | nil => exact ⟨by simp [mergePhase2], by simp [mergePhase2]⟩
  | cons g rest ih =>
    by_cases hn : geminiNum g i ∈ seen
    · rw [mergePhase2, if_pos hn]
      exact ih (i + 1) seen
    · rw [mergePhase2, if_neg hn]
      obtain ⟨hseen, hnd⟩ := ih (i + 1) (geminiNum g i :: seen)
      refine ⟨?_, ?_⟩
      · intro m hm
        rcases List.mem_cons.mp hm with h | h
        · exact h ▸ hn
        · exact fun hc => hseen m h (List.mem_cons_of_mem _ hc)
      · rw [List.map_cons, List.nodup_cons]
        refine ⟨?_, hnd⟩
        intro hmem
        obtain ⟨m, hm, hmeq⟩ := List.mem_map.mp hmem
        exact hseen m hm (hmeq ▸ List.mem_cons_self _ _)

/-- C3 amended: the merge keeps, for every question number the text-pattern
strategy detected, a text-pattern entry with that number; every merged entry
that is not a text-pattern entry is a generative fill-in whose *raw*
question-number string is absent from the text-pattern set; and the merged
question-number keys are pairwise distinct (first writer wins).  The
deduplication key is the exact string as produced — the text-pattern side is
already lower-cased by the detector, but generative keys are compared
verbatim, not normalized. -/
theorem merge_regex_priority (rqs : List RegexQuestion) (gqs : List GeminiQuestion) :
    (∀ q ∈ rqs, ∃ m ∈ mergeQuestions rqs gqs,
      m ∈ rqs ∧ m.questionNumber = q.questionNumber) ∧
    (∀ m ∈ mergeQuestions rqs gqs, m ∉ rqs →
      m.questionNumber ∉ rqs.map (fun q => q.questionNumber)) ∧
    ((mergeQuestions rqs gqs).map (fun q => q.questionNumber)).Nodup := by
  refine ⟨?_, ?_, ?_⟩
  · intro q hq
    obtain ⟨m, hm, hmeq⟩ := mergePhase1_covers rqs [] q hq (by simp)
    exact ⟨m, List.mem_append_left _ hm, mergePhase1_sub rqs [] m hm, hmeq⟩
  · intro m hm hnot
    rcases List.mem_append.mp hm with h | h
    · exact absurd (mergePhase1_sub rqs [] m h) hnot
    · intro hmem
      obtain ⟨q, hq, hqeq⟩ := List.mem_map.mp hmem
      exact (mergePhase2_keys gqs 0 (mergePhase1 rqs []).2).1 m h
        (hqeq ▸ mergePhase1_keys_seen rqs [] q hq)
  · rw [mergeQuestions, List.map_append, List.nodup_append]
    refine ⟨(mergePhase1_out_nodup rqs []).1, (mergePhase2_keys gqs 0 _).2, ?_⟩
    intro k hk1 hk2
    obtain ⟨m1, hm1, hm1eq⟩ := List.mem_map.mp hk1
    obtain ⟨m2, hm2, hm2eq⟩ := List.mem_map.mp hk2
    have hs : m1.questionNumber ∈ (mergePhase1 rqs []).2 :=
      mergePhase1_keys_seen rqs [] m1 (mergePhase1_sub rqs [] m1 hm1)
    exact (mergePhase2_keys gqs 0 (mergePhase1 rqs []).2).1 m2 hm2
      (by rw [hm2eq, ← hm1eq]; exact hs)

/-- C3 counterexample: the merge deduplicates on the raw question-number
string, not on a normalized key — with the text-pattern set covering "1a", a
generative item labelled "1A" (the same label up to normalization) is still
added, so the merged output contains a generative entry for a question number
present (after normalization) in the text-pattern set. -/
theorem merge_not_normalized :
    mergeQuestions [regexEntryOneA] [geminiEntryOneA] =
      [regexEntryOneA, ⟨"1A", [], ["t2"]⟩] ∧
    specNormalizeKey "1A" = specNormalizeKey "1a" ∧
    ("1A" : String) ≠ "1a" := by
  decide

/-- Witness for the amended C3 at the concrete one-entry inputs. -/
theorem merge_regex_priority_witness :
    regexEntryOneA ∈ [regexEntryOneA] ∧
    ∃ m ∈ mergeQuestions [regexEntryOneA] [geminiEntryOneA],
      m ∈ [regexEntryOneA] ∧ m.questionNumber = regexEntryOneA.questionNumber :=
  ⟨List.mem_cons_self _ _,
    (merge_regex_priority [regexEntryOneA] [geminiEntryOneA]).1 regexEntryOneA
      (List.mem_cons_self _ _)⟩

/-! ## C8: stitch lemmas -/

theorem foldl_max_init_le (l : List Nat) (a : Nat) : a ≤ l.foldl Nat.max a := by
  induction l generalizing a with
  | nil => exact Nat.le_refl a
  | cons b t ih => exact Nat.le_trans (Nat.le_max_left a b) (ih (Nat.max a b))

theorem foldl_max_le_of_mem (l : List Nat) (x : Nat) (hx : x ∈ l) :
    ∀ a, x ≤ l.foldl Nat.max a := by
  induction l with
  | nil => exact absurd hx (by simp)
  | cons b t ih =>
    intro a
    rcases List.mem_cons.mp hx with h | h
    · subst h
      rw [List.foldl_cons]
      exact Nat.le_trans (Nat.le_max_right a x) (foldl_max_init_le t (Nat.max a x))
    · rw [List.foldl_cons]
      exact ih h (Nat.max a b)

theorem foldl_max_mem (l : List Nat) :
    ∀ a, l.foldl Nat.max a = a ∨ l.foldl Nat.max a ∈ l := by
  induction l with
  | nil => exact fun a => Or.inl rfl
  | cons b t ih =>
    intro a
    rw [List.foldl_cons]
    rcases ih (Nat.max a b) with h | h
    · rcases Nat.le_total a b with hab | hab
      · right
        have hm : Nat.max a b = b := Nat.max_eq_right hab
        rw [h, hm]
        exact List.mem_cons_self _ _
      · left
        have hm : Nat.max a b = a := Nat.max_eq_left hab
        rw [h, hm]
    · exact Or.inr (List.mem_cons_of_mem _ h)

theorem maxImageWidth_ge (loaded : List RasterImage) (img : RasterImage)
    (h : img ∈ loaded) : img.width ≤ maxImageWidth loaded :=
  foldl_max_le_of_mem _ img.width (List.mem_map_of_mem RasterImage.width h) 0

theorem maxImageWidth_mem (loaded : List RasterImage) (h : loaded ≠ []) :
    maxImageWidth loaded ∈ loaded.map RasterImage.width := by
  rcases foldl_max_mem (loaded.map RasterImage.width) 0 with h0 | hmem
  · obtain ⟨img, t, rfl⟩ := List.exists_cons_of_ne_nil h
    have h0' : maxImageWidth (img :: t) = 0 := h0
    have hle : img.width ≤ maxImageWidth (img :: t) :=
      maxImageWidth_ge _ img (List.mem_cons_self _ _)
    have hw0 : img.width = 0 :=
      Nat.le_antisymm (h0' ▸ hle) (Nat.zero_le _)
    have hmw : maxImageWidth (img :: t) = img.width := by rw [h0', hw0]
    rw [hmw]
    exact List.mem_map_of_mem RasterImage.width (List.mem_cons_self _ _)
  · exact hmem

theorem placeImages_get? (L : List RasterImage) (w y i : Nat) (img : RasterImage)
    (h : L.get? i = some img) :
    (placeImages w y L).get? i =
      some (.drawImage img (((w : ℚ) - (img.width : ℚ)) / 2)
        (y + ((L.take i).map RasterImage.height).sum)) := by
  induction L generalizing y i with
  | nil => exact absurd h (by simp)
  | cons a t ih =>
    cases i with
    | zero =>
      simp only [List.get?] at h
      injection h with h
      subst h
      simp [placeImages]
    | succ i =>
      simp only [List.get?] at h
      rw [placeImages]
      simp only [List.get?]
      rw [ih (y + a.height) i h]
      congr 2
      simp [List.take, Nat.add_assoc]

/-- C8: for two or more page images, `stitchImagesVertically` crops the same
top band from every contributing page's image, loads the cropped results, and
encodes a canvas whose width is the maximum width across the cropped inputs
and whose height is the sum of their heights; the canvas is first filled
white, then the images are drawn top-to-bottom in page order, each centered
at `x = (width − imageWidth) / 2` with `y` the sum of the preceding heights;
for a single page image only the crop is applied. -/
theorem stitch_composition (decode : String → Except String RasterImage)
    (encode : RasterImage → Except String String)
    (encodeCanvas : CanvasSpec → Except String String)
    (imgs : List String) (loaded : List RasterImage) (out : String)
    (h2 : 2 ≤ imgs.length)
    (hload : loadCroppedImages decode encode imgs = .ok loaded)
    (henc : encodeCanvas (stitchCanvas loaded) = .ok out) :
    stitchImagesVertically decode encode encodeCanvas imgs = .ok out ∧
    (stitchCanvas loaded).height = (loaded.map RasterImage.height).sum ∧
    (∀ img ∈ loaded, img.width ≤ (stitchCanvas loaded).width) ∧
    (loaded ≠ [] → (stitchCanvas loaded).width ∈ loaded.map RasterImage.width) ∧
    (stitchCanvas loaded).ops.head? =
      some (.fillRectWhite (stitchCanvas loaded).width (stitchCanvas loaded).height) ∧
    (∀ i img, loaded.get? i = some img →
      (stitchCanvas loaded).ops.get? (i + 1) =
        some (.drawImage img ((((stitchCanvas loaded).width : ℚ) - (img.width : ℚ)) / 2)
          (((loaded.take i).map RasterImage.height).sum))) ∧
    (∀ b, stitchImagesVertically decode encode encodeCanvas [b] =
      .ok (cropBarcodeFromBase64 decode encode cropPercentDefault b)) := by
  refine ⟨?_, rfl, ?_, maxImageWidth_mem loaded, rfl, ?_, fun b => rfl⟩
  · match imgs, h2 with
    | b1 :: b2 :: t, _ =>
      simp only [stitchImagesVertically, hload, henc]
  · exact fun img h => maxImageWidth_ge loaded img h
  · intro i img h
    show (placeImages (maxImageWidth loaded) 0 loaded).get? i = _
    rw [placeImages_get? loaded (maxImageWidth loaded) 0 i img h]
    simp [stitchCanvas]

/-- Witness for C8 with concrete two-page input and concrete codecs (each
decode yields a 1-row image; the crop of a 1-row image removes 0 rows). -/
theorem stitch_composition_witness :
    loadCroppedImages decodeSmall encodeSmall ["aa", "bb"] =
      .ok [⟨1, [[7]]⟩, ⟨1, [[7]]⟩] ∧
    stitchImagesVertically decodeSmall encodeSmall encodeCanvasSmall ["aa", "bb"] =
      .ok "stitched" :=
  ⟨rfl,
    (stitch_composition decodeSmall encodeSmall encodeCanvasSmall ["aa", "bb"]
      [⟨1, [[7]]⟩, ⟨1, [[7]]⟩] "stitched" (by decide) rfl rfl).1⟩

end ExamV1
